import Mathlib

/-!
Verification of the feed-synchronization and cache engine of the
iptbrowser repository (src/app.py and src/scraper.py), shallowly embedded
in Lean 4.

Modelling conventions:
* Python `datetime` values live on an abstract integer time axis (minutes);
  `datetime.fromisoformat`/`isoformat` round-tripping is the identity on
  this axis.
* A Python value that can be `None` is an `Option`.
* The torrent `id` parsed from the page can be `None` or empty in Python;
  both falsy values are modelled as the empty string `""`.
* Network pages are passed in as explicit page lists / page oracles; the
  scraper walks them exactly as the source code walks fetched pages.
-/

namespace IptBrowser

/-- A torrent record as produced by `IPTorrentsScraper._parse_torrent_row`
(src/scraper.py).  The nested display-only `metadata` dictionary
(rating / year / genres / quality / uploader) is never read by the cache
engine and is not modelled; all fields the cache engine touches are here. -/
structure Torrent where
  id : String := ""
  name : String := ""
  category : String := ""
  size : String := "Unknown"
  seeders : Int := 0
  leechers : Int := 0
  snatched : Int := 0
  uploadTime : String := "Unknown"
  timestamp : Int := 0
  downloadLink : String := ""
  isFreeleech : Bool := false
  deriving DecidableEq

/-- Per-category metadata entry, as built by `_build_category_metadata`
(src/app.py lines 167-192): newest timestamp, oldest timestamp, count. -/
structure CategoryMeta where
  newestTimestamp : Int
  oldestTimestamp : Int
  count : Nat
  deriving DecidableEq

/-- Replace the value stored under key `c` in an insertion-ordered
association list (Python dict update `categories_meta[cat] = ...` on an
existing key keeps the key's position). -/
def setMeta : List (String × CategoryMeta) → String → CategoryMeta → List (String × CategoryMeta)
  | [], c, m => [(c, m)]
  | (c', m') :: rest, c, m =>
      if c' = c then (c, m) :: rest else (c', m') :: setMeta rest c m

/-- The per-record update inside the loop of `_build_category_metadata`:
`count += 1`, then bump newest / oldest against the record's timestamp. -/
def bumpMeta (m : CategoryMeta) (ts : Int) : CategoryMeta :=
  { newestTimestamp := if ts > m.newestTimestamp then ts else m.newestTimestamp
    oldestTimestamp := if ts < m.oldestTimestamp then ts else m.oldestTimestamp
    count := m.count + 1 }

/-- One iteration of the loop in `_build_category_metadata`
(src/app.py lines 171-190): records with a falsy category are skipped; a
first occurrence seeds the entry with `count = 0` and both timestamps set
to the record's timestamp, after which the shared bump code runs. -/
def buildCategoryMetadataStep (acc : List (String × CategoryMeta)) (t : Torrent) :
    List (String × CategoryMeta) :=
  if t.category = "" then acc
  else
    let acc' :=
      match acc.lookup t.category with
      | none => acc ++ [(t.category, ⟨t.timestamp, t.timestamp, 0⟩)]
      | some _ => acc
    match acc'.lookup t.category with
    | none => acc'
    | some m => setMeta acc' t.category (bumpMeta m t.timestamp)

/-- `_build_category_metadata(torrents)` (src/app.py lines 167-192):
derive the per-category metadata map from a list of records.  Python dicts
are insertion-ordered, hence the association-list representation. -/
def buildCategoryMetadata (torrents : List Torrent) : List (String × CategoryMeta) :=
  torrents.foldl buildCategoryMetadataStep []

/-- The duplicate-id safety net in the full branch of `refresh_torrents`
(src/app.py lines 313-319): build a dict keyed by torrent id, first
occurrence wins, and take its values in insertion order. -/
def dedupByIdGo (seen : List String) : List Torrent → List Torrent
  | [] => []
  | t :: ts =>
      if t.id ∈ seen then dedupByIdGo seen ts
      else t :: dedupByIdGo (t.id :: seen) ts

/-- `unique_torrents` construction of `refresh_torrents` (src/app.py
lines 313-319). -/
def dedupById (torrents : List Torrent) : List Torrent :=
  dedupByIdGo [] torrents

/-- Insert a record into a timestamp-descending list, after every record
with a strictly newer timestamp and before the first record that is not
newer (so that an element inserted from the left of the original list
stays before equal-timestamp elements, matching a stable sort). -/
def insertByTsDesc (t : Torrent) : List Torrent → List Torrent
  | [] => [t]
  | u :: us =>
      if u.timestamp > t.timestamp then u :: insertByTsDesc t us else t :: u :: us

/-- `list.sort(key=lambda x: x['timestamp'], reverse=True)` — Python's
stable sort by timestamp, newest first; modelled by a stable structural
insertion sort (same key, same tie order). -/
def sortByTimestampDesc (l : List Torrent) : List Torrent :=
  l.foldr insertByTsDesc []

/-- In-memory cache state: the `torrents_cache` dict of src/app.py in its
standard shape (all metadata keys present, values possibly `None`). -/
structure CacheState where
  createdAt : Option Int := none
  updatedAt : Option Int := none
  defaultWindowDays : Int := 30
  categories : List (String × CategoryMeta) := []
  data : List Torrent := []
  deriving DecidableEq

/-- The module-level initial value of `torrents_cache` (src/app.py
lines 50-58). -/
def initialCache : CacheState := {}

/-- `CACHE_DURATION = 15` minutes (src/app.py line 46). -/
def CACHE_DURATION : Int := 15

/-- `is_cache_valid()` (src/app.py lines 241-250): true iff `updated_at`
is set and the cache age is under `CACHE_DURATION` minutes. -/
def isCacheValid (s : CacheState) (now : Int) : Bool :=
  match s.updatedAt with
  | none => false
  | some u => decide (now - u < CACHE_DURATION)

/-- Which branch of `refresh_torrents` (src/app.py lines 277-336) runs:
return cached data (`cache-only`), do an incremental fetch, do a full
window fetch, or fall through to "Using cached data". -/
inductive RefreshAction where
  | cacheOnly
  | incrementalFetch
  | fullFetch
  | useCache
  deriving DecidableEq

/-- The branch structure of `refresh_torrents` (src/app.py lines 277-336):
`cache-only` returns immediately; `incremental` runs only when `force` is
not set (with `force` it falls through); then
`if mode == 'full' or force or not is_cache_valid():` selects the full
fetch; otherwise cached data is served. -/
def refreshDispatch (mode : String) (force : Bool) (cacheValid : Bool) : RefreshAction :=
  if mode = "cache-only" then .cacheOnly
  else if mode = "incremental" ∧ force = false then .incrementalFetch
  else if mode = "full" ∨ force = true ∨ cacheValid = false then .fullFetch
  else .useCache

/-- The cache mutation performed by the full branch of `refresh_torrents`
(src/app.py lines 296-325) once `scraper.fetch_torrents` has returned
`fetched`: category metadata is rebuilt from the raw fetched list,
`created_at` is read from the existing metadata (the key is always
present, so its old value — possibly `None` — is kept), `updated_at`
becomes `now`, the window becomes `days`, and `data` is replaced wholesale
by the deduplicated fetched records. -/
def fullIngest (s : CacheState) (fetched : List Torrent) (days now : Int) : CacheState :=
  { createdAt := s.createdAt
    updatedAt := some now
    defaultWindowDays := days
    categories := buildCategoryMetadata fetched
    data := dedupById fetched }

/-- `existing_ids` of `_incremental_refresh` (src/app.py line 370): the
ids of cached records whose id is truthy. -/
def existingIds (data : List Torrent) : List String :=
  (data.filter (fun t => decide (t.id ≠ ""))).map (·.id)

/-- The merge-and-sort step of `_incremental_refresh` (src/app.py
lines 369-379): append every incoming record whose id is not in the
pre-computed `existing_ids` set (the set is not updated while looping),
then stable-sort by timestamp, newest first. -/
def mergeIncoming (data incoming : List Torrent) : List Torrent :=
  sortByTimestampDesc
    (data ++ incoming.filter (fun t => decide (t.id ∉ existingIds data)))

/-- `_incremental_refresh` (src/app.py lines 339-393) given the records
`newTorrents` returned by `scraper.fetch_incremental`: an empty result
returns early with the store untouched; otherwise merge, sort, rebuild
all category metadata from the merged data, and stamp `updated_at`. -/
def incIngest (s : CacheState) (newTorrents : List Torrent) (now : Int) : CacheState :=
  if newTorrents = [] then s
  else
    let data' := mergeIncoming s.data newTorrents
    { s with
        data := data'
        updatedAt := some now
        categories := buildCategoryMetadata data' }

/-- States of the in-memory cache reachable from the initial empty store
by full and incremental ingests with arbitrary fetched batches. -/
inductive Reachable : CacheState → Prop where
  | init : Reachable initialCache
  | full (s : CacheState) (fetched : List Torrent) (days now : Int) :
      Reachable s → Reachable (fullIngest s fetched days now)
  | inc (s : CacheState) (newTorrents : List Torrent) (now : Int) :
      Reachable s → Reachable (incIngest s newTorrents now)

/-- Reachable states when every incremental batch consists of records
with pairwise-distinct, non-empty identifiers. -/
inductive ReachableDistinct : CacheState → Prop where
  | init : ReachableDistinct initialCache
  | full (s : CacheState) (fetched : List Torrent) (days now : Int) :
      ReachableDistinct s → ReachableDistinct (fullIngest s fetched days now)
  | inc (s : CacheState) (newTorrents : List Torrent) (now : Int)
      (hnodup : (newTorrents.map Torrent.id).Nodup)
      (hne : ∀ t ∈ newTorrents, t.id ≠ "") :
      ReachableDistinct s → ReachableDistinct (incIngest s newTorrents now)

/-- `CACHE_FILE = 'cache.json'` (src/app.py line 45). -/
def CACHE_FILE : String := "cache.json"

/-- On-disk cache file contents, as far as they deserialize (iso-format
timestamp strings are modelled by their integer value).  The legacy
format has a top-level `timestamp` and no `metadata`; the current format
carries the full metadata block.  Category-metadata timestamps in files
written by `save_cache` are never null (Python datetimes are truthy), so
they are modelled as plain integers. -/
inductive CacheFile where
  | legacy (timestamp : Option Int) (data : List Torrent)
  | modern (createdAt updatedAt : Option Int) (windowDays : Int)
      (categories : List (String × CategoryMeta)) (data : List Torrent)
  deriving DecidableEq

/-- Serialization performed by `save_cache` (src/app.py lines 195-238):
the metadata block and record list are written in the current format. -/
def encodeCache (s : CacheState) : CacheFile :=
  .modern s.createdAt s.updatedAt s.defaultWindowDays s.categories s.data

/-- File-system operations that persistence code can perform. -/
inductive FsOp where
  | write (path : String) (content : CacheFile)
  | rename (src dst : String)
  deriving DecidableEq

/-- The file operations `save_cache` (src/app.py lines 195-238) performs:
a single `open(CACHE_FILE, 'w')` / `json.dump` — one direct write to the
canonical cache file, nothing else. -/
def saveCacheOps (s : CacheState) : List FsOp :=
  [FsOp.write CACHE_FILE (encodeCache s)]

/-- The write-temporary-then-rename pattern the specification ascribes to
persistence (modelled from the spec: "state is serialized to a temporary
file and then renamed over the canonical file"). -/
def atomicSavePattern (ops : List FsOp) : Prop :=
  ∃ tmp content, tmp ≠ CACHE_FILE ∧
    ops = [FsOp.write tmp content, FsOp.rename tmp CACHE_FILE]

/-- How `load_cache` (src/app.py lines 95-164) turns a successfully
parsed file into the in-memory state: the legacy format is migrated
(both global timestamps set to the file's `timestamp`, category metadata
derived from the records, default window restored to the constant); the
current format is loaded field by field. -/
def loadFromFile : CacheFile → CacheState
  | .legacy ts data =>
      { createdAt := ts
        updatedAt := ts
        defaultWindowDays := 30
        categories := buildCategoryMetadata data
        data := data }
  | .modern c u w cats data =>
      { createdAt := c
        updatedAt := u
        defaultWindowDays := w
        categories := cats
        data := data }

/-- The loader's file-system environment.  `canonical` is the parse
outcome of `cache.json` (`none`: file absent; `some none`: present but
deserialization raises; `some (some f)`: parses as `f`).  `backup` is a
possible backup copy present in the environment; `load_cache` contains no
code that reads any backup path. -/
structure FileSystem where
  canonical : Option (Option CacheFile)
  backup : Option (Option CacheFile)
  deriving DecidableEq

/-- `load_cache` (src/app.py lines 95-164): if the canonical file is
absent nothing happens; if parsing raises, the exception is caught
(`except Exception`) and the current store is left unchanged; otherwise
the parsed contents replace the store.  No other file is consulted. -/
def loadCache (fs : FileSystem) (current : CacheState) : CacheState :=
  match fs.canonical with
  | none => current
  | some none => current
  | some (some f) => loadFromFile f

/-- `isNewer cutoff` is the per-record test of the incremental walk
(src/scraper.py line 196): strictly newer than the cutoff timestamp. -/
def isNewer (cutoff : Int) (t : Torrent) : Bool :=
  decide (cutoff < t.timestamp)

/-- `max_pages = 5` of `_fetch_until_timestamp` (src/scraper.py
line 184). -/
def MAX_INCREMENTAL_PAGES : Nat := 5

/-- The page loop of `_fetch_until_timestamp` (src/scraper.py
lines 187-209): stop on an empty page; within a page, append records in
order while they are strictly newer than the cutoff and stop the whole
walk at the first record that is not (`hit_cutoff`); otherwise continue
with the next page while fuel remains. -/
def walkPages : Nat → List (List Torrent) → Int → List Torrent
  | 0, _, _ => []
  | _, [], _ => []
  | fuel + 1, page :: rest, cutoff =>
      if page = [] then []
      else
        let fresh := page.takeWhile (isNewer cutoff)
        if fresh.length < page.length then fresh
        else fresh ++ walkPages fuel rest cutoff

/-- `_fetch_until_timestamp` (src/scraper.py lines 168-211) over the
sequence of pages the site yields for the category: scan at most
`max_pages = 5` pages. -/
def fetchUntilTimestamp (pages : List (List Torrent)) (cutoff : Int) : List Torrent :=
  walkPages MAX_INCREMENTAL_PAGES pages cutoff

/-- `estimated_pages = min(10, max_pages - 1)` with `max_pages = 50`
(src/scraper.py lines 234, 255). -/
def ESTIMATED_CONCURRENT_PAGES : Nat := 10

/-- `min(first_page, key=lambda x: x['timestamp'])` — the timestamp of
the oldest record on a (non-empty) page (src/scraper.py line 249). -/
def minTimestampOnPage : List Torrent → Int
  | [] => 0
  | t :: ts => ts.foldl (fun m u => min m u.timestamp) t.timestamp

/-- `_fetch_category_pages` (src/scraper.py lines 231-280), over a page
oracle, returning the accumulated records together with the number of
page requests issued.  Page 0 is fetched first (one request); an empty
page 0 ends the fetch.  Its records are filtered to the time window; if
the oldest record on page 0 is already older than the cutoff the fetch
short-circuits.  Otherwise ten further pages are submitted to the worker
pool (ten more requests) and each result is filtered to the window; the
worker pool completes in arbitrary order, and this embedding fixes the
submission order, which the verified claims do not depend on. -/
def fetchCategoryPages (pages : Nat → List Torrent) (cutoff : Int) :
    List Torrent × Nat :=
  let firstPage := pages 0
  if firstPage = [] then ([], 1)
  else
    let withinRange := firstPage.filter (fun t => decide (cutoff ≤ t.timestamp))
    if minTimestampOnPage firstPage < cutoff then (withinRange, 1)
    else
      (withinRange ++
        ((List.range ESTIMATED_CONCURRENT_PAGES).map
          (fun i => (pages (i + 1)).filter (fun t => decide (cutoff ≤ t.timestamp)))).flatten,
       1 + ESTIMATED_CONCURRENT_PAGES)

/-! ## Helper lemmas about the embedded operations -/

lemma dedupByIdGo_subset : ∀ (l : List Torrent) (seen : List String) (t : Torrent),
    t ∈ dedupByIdGo seen l → t ∈ l
  | [], _, _, h => by simp [dedupByIdGo] at h
  | u :: ts, seen, t, h => by
      by_cases hu : u.id ∈ seen
      · simp only [dedupByIdGo, if_pos hu] at h
        exact List.mem_cons_of_mem _ (dedupByIdGo_subset ts seen t h)
      · simp only [dedupByIdGo, if_neg hu, List.mem_cons] at h
        rcases h with rfl | h
        · exact List.mem_cons_self _ _
        · exact List.mem_cons_of_mem _ (dedupByIdGo_subset ts _ t h)

lemma dedupById_subset {l : List Torrent} {t : Torrent} (h : t ∈ dedupById l) : t ∈ l :=
  dedupByIdGo_subset l [] t h

lemma dedupByIdGo_nodup : ∀ (l : List Torrent) (seen : List String),
    ((dedupByIdGo seen l).map Torrent.id).Nodup ∧
    ∀ x ∈ (dedupByIdGo seen l).map Torrent.id, x ∉ seen
  | [], seen => by simp [dedupByIdGo]
  | t :: ts, seen => by
      by_cases h : t.id ∈ seen
      · simpa only [dedupByIdGo, if_pos h] using dedupByIdGo_nodup ts seen
      · obtain ⟨ih1, ih2⟩ := dedupByIdGo_nodup ts (t.id :: seen)
        simp only [dedupByIdGo, if_neg h, List.map_cons, List.nodup_cons]
        refine ⟨⟨fun hmem => ?_, ih1⟩, fun x hx => ?_⟩
        · exact (ih2 _ hmem) (List.mem_cons_self _ _)
        · rcases List.mem_cons.mp hx with rfl | hx'
          · exact h
          · exact fun hxseen => (ih2 _ hx') (List.mem_cons_of_mem _ hxseen)

lemma dedupById_ids_nodup (l : List Torrent) : ((dedupById l).map Torrent.id).Nodup :=
  (dedupByIdGo_nodup l []).1

lemma dedupByIdGo_eq_self : ∀ (l : List Torrent) (seen : List String),
    (∀ t ∈ l, t.id ∉ seen) → (l.map Torrent.id).Nodup → dedupByIdGo seen l = l
  | [], _, _, _ => rfl
  | t :: ts, seen, hseen, hnodup => by
      have ht : t.id ∉ seen := hseen t (List.mem_cons_self _ _)
      have hhead : t.id ∉ ts.map Torrent.id :=
        (List.nodup_cons.mp (by simpa using hnodup)).1
      simp only [dedupByIdGo, if_neg ht, List.cons.injEq, true_and]
      refine dedupByIdGo_eq_self ts (t.id :: seen) (fun u hu => ?_)
        (List.nodup_cons.mp (by simpa using hnodup)).2
      intro hmem
      rcases List.mem_cons.mp hmem with heq | hmem'
      · exact hhead (heq ▸ List.mem_map_of_mem Torrent.id hu)
      · exact hseen u (List.mem_cons_of_mem _ hu) hmem'

lemma dedupById_eq_self_of_nodup {l : List Torrent}
    (h : (l.map Torrent.id).Nodup) : dedupById l = l :=
  dedupByIdGo_eq_self l [] (by simp) h

lemma mem_existingIds {x : String} {d : List Torrent} :
    x ∈ existingIds d ↔ ∃ t ∈ d, t.id = x ∧ x ≠ "" := by
  simp only [existingIds, List.mem_map, List.mem_filter, decide_eq_true_iff]
  constructor
  · rintro ⟨t, ⟨ht, hne⟩, rfl⟩
    exact ⟨t, ht, rfl, hne⟩
  · rintro ⟨t, ht, rfl, hne⟩
    exact ⟨t, ⟨ht, hne⟩, rfl⟩

lemma insertByTsDesc_perm (t : Torrent) (l : List Torrent) :
    (insertByTsDesc t l).Perm (t :: l) := by
  induction l with
  | nil => simp [insertByTsDesc]
  | cons u us ih =>
    by_cases h : u.timestamp > t.timestamp
    · simp only [insertByTsDesc, if_pos h]
      exact (ih.cons u).trans (List.Perm.swap t u us)
    · simp [insertByTsDesc, if_neg h]

lemma sortByTimestampDesc_perm (l : List Torrent) :
    (sortByTimestampDesc l).Perm l := by
  induction l with
  | nil => rfl
  | cons t ts ih =>
    exact (insertByTsDesc_perm t (sortByTimestampDesc ts)).trans (ih.cons t)

lemma mem_sortByTimestampDesc {a : Torrent} {l : List Torrent} :
    a ∈ sortByTimestampDesc l ↔ a ∈ l :=
  (sortByTimestampDesc_perm l).mem_iff

lemma mem_mergeIncoming {a : Torrent} {S B : List Torrent} :
    a ∈ mergeIncoming S B ↔ a ∈ S ∨ (a ∈ B ∧ a.id ∉ existingIds S) := by
  simp [mergeIncoming, mem_sortByTimestampDesc, List.mem_append, List.mem_filter]

lemma mergeIncoming_perm (S B : List Torrent) :
    (mergeIncoming S B).Perm
      (S ++ B.filter (fun t => decide (t.id ∉ existingIds S))) :=
  sortByTimestampDesc_perm _

lemma takeWhile_len_le {α : Type} (p : α → Bool) (l : List α) :
    (l.takeWhile p).length ≤ l.length := by
  induction l with
  | nil => simp
  | cons a l ih =>
    by_cases h : p a
    · simpa [List.takeWhile_cons, h] using ih
    · simp [List.takeWhile_cons, h]

lemma takeWhile_eq_self_of_length {α : Type} (p : α → Bool) (l : List α)
    (h : (l.takeWhile p).length = l.length) : l.takeWhile p = l := by
  induction l with
  | nil => simp
  | cons a l ih =>
    by_cases hp : p a
    · simp only [List.takeWhile_cons, if_pos hp, List.length_cons, Nat.add_right_cancel_iff] at h ⊢
      exact congrArg _ (ih h)
    · simp [List.takeWhile_cons, hp] at h

lemma walkPages_eq (cutoff : Int) :
    ∀ (fuel : Nat) (pages : List (List Torrent)),
      (∀ p ∈ pages, p ≠ []) →
      walkPages fuel pages cutoff = ((pages.take fuel).flatten).takeWhile (isNewer cutoff)
  | 0, pages, _ => by simp [walkPages]
  | fuel + 1, [], _ => by simp [walkPages]
  | fuel + 1, page :: rest, h => by
      have hp : page ≠ [] := h page (List.mem_cons_self _ _)
      have hrest : ∀ p ∈ rest, p ≠ [] := fun p hmem => h p (List.mem_cons_of_mem _ hmem)
      have hih := walkPages_eq cutoff fuel rest hrest
      simp only [walkPages, if_neg hp, List.take_succ_cons, List.flatten_cons,
        List.takeWhile_append]
      by_cases hlen : (page.takeWhile (isNewer cutoff)).length = page.length
      · have heq : page.takeWhile (isNewer cutoff) = page :=
          takeWhile_eq_self_of_length _ _ hlen
        have hnlt : ¬ (page.takeWhile (isNewer cutoff)).length < page.length := by omega
        rw [if_neg hnlt, if_pos hlen, hih, heq]
      · have hlt : (page.takeWhile (isNewer cutoff)).length < page.length :=
          lt_of_le_of_ne (takeWhile_len_le _ _) hlen
        rw [if_pos hlt, if_neg hlen]

/-! ## Claims -/

/-- C1: the claim says a `full`-mode refresh with `force` unset on a fresh
store behaves like `cache-only` (no fetch, store unchanged).  The code's
branch condition `if mode == 'full' or force or not is_cache_valid():`
(src/app.py line 289) makes `mode == 'full'` select the network fetch
unconditionally: with `updated_at = now` the cache is valid, yet the
dispatcher still chooses the full fetch, which refetches and overwrites
the store. -/
theorem full_mode_fetches_despite_fresh_cache :
    isCacheValid { initialCache with updatedAt := some 100 } 100 = true ∧
    refreshDispatch "full" false
      (isCacheValid { initialCache with updatedAt := some 100 } 100) =
      RefreshAction.fullFetch := by decide

/-- C10: a refresh with mode `incremental` and `force` set skips the
incremental branch (guarded by `not force`, src/app.py line 283) and falls
through to the full-window fetch, whatever the cache validity. -/
theorem incremental_force_falls_through_to_full :
    ∀ cacheValid : Bool,
      refreshDispatch "incremental" true cacheValid = RefreshAction.fullFetch := by
  decide

/-- C2 counterexample: a store caching one `PC-Rip` record loses that
record when a full-mode ingest for the request `["PC-ISO"]` (whose fetch
returns only `PC-ISO` records) runs, because `refresh_torrents` assigns
`torrents_cache['data'] = deduplicated` wholesale (src/app.py line 323).
The claim that records of partitions outside the request remain in the
store is therefore false. -/
theorem full_ingest_drops_unrequested_partition :
    (({ id := "b1", category := "PC-Rip", timestamp := 10 } : Torrent) ∈
      ({ initialCache with
          data := [{ id := "b1", category := "PC-Rip", timestamp := 10 }],
          categories :=
            buildCategoryMetadata
              [{ id := "b1", category := "PC-Rip", timestamp := 10 }] } : CacheState).data) ∧
    "PC-Rip" ∉ (["PC-ISO"] : List String) ∧
    (∀ t ∈ [({ id := "a1", category := "PC-ISO", timestamp := 20 } : Torrent)],
      t.category ∈ (["PC-ISO"] : List String)) ∧
    (({ id := "b1", category := "PC-Rip", timestamp := 10 } : Torrent) ∉
      (fullIngest
        { initialCache with
            data := [{ id := "b1", category := "PC-Rip", timestamp := 10 }],
            categories :=
              buildCategoryMetadata
                [{ id := "b1", category := "PC-Rip", timestamp := 10 }] }
        [{ id := "a1", category := "PC-ISO", timestamp := 20 }] 30 100).data) := by
  decide

/-- C2 amended: a full-mode ingest replaces the store's record list
wholesale with the deduplicated fetched records; consequently every cached
record whose identifier does not occur among the fetched records — in
particular every record of a partition that was not requested and hence
not fetched — is dropped from the store. -/
theorem full_ingest_replaces_data_wholesale :
    ∀ (s : CacheState) (fetched : List Torrent) (days now : Int),
      (fullIngest s fetched days now).data = dedupById fetched ∧
      ∀ t ∈ s.data, t.id ∉ fetched.map Torrent.id →
        t ∉ (fullIngest s fetched days now).data := by
  intro s fetched days now
  refine ⟨rfl, fun t _ hid hmem => ?_⟩
  exact hid (List.mem_map_of_mem Torrent.id (dedupById_subset hmem))

/-- C2 amended, witness: the concrete `PC-Rip` record of the
counterexample is dropped by the amended replacement semantics. -/
theorem full_ingest_replaces_data_wholesale_witness :
    ({ id := "b1", category := "PC-Rip", timestamp := 10 } : Torrent) ∉
      (fullIngest
        { initialCache with
            data := [{ id := "b1", category := "PC-Rip", timestamp := 10 }] }
        [{ id := "a1", category := "PC-ISO", timestamp := 20 }] 30 100).data :=
  (full_ingest_replaces_data_wholesale
      { initialCache with
          data := [{ id := "b1", category := "PC-Rip", timestamp := 10 }] }
      [{ id := "a1", category := "PC-ISO", timestamp := 20 }] 30 100).2
    { id := "b1", category := "PC-Rip", timestamp := 10 } (by decide) (by decide)

/-- C3 counterexample: `_incremental_refresh` tests incoming records
against a pre-computed `existing_ids` set that is not updated while
appending (src/app.py lines 370-375), so one incremental batch carrying
two distinct records with the same identifier puts both into the store.
The resulting state is reachable and violates identifier uniqueness. -/
theorem incremental_ingest_creates_duplicate_ids :
    Reachable
      (incIngest initialCache
        [{ id := "x", name := "a", timestamp := 1 },
         { id := "x", name := "b", timestamp := 2 }] 0) ∧
    ¬ ((incIngest initialCache
        [{ id := "x", name := "a", timestamp := 1 },
         { id := "x", name := "b", timestamp := 2 }] 0).data.map Torrent.id).Nodup :=
  ⟨Reachable.inc _ _ _ Reachable.init, by decide⟩

/-- C3 amended: in every state reachable from the initial empty store by
full ingests and by incremental ingests whose batches carry
pairwise-distinct, non-empty identifiers, no two records of the store
share an identifier. -/
theorem reachable_distinct_ids_nodup (s : CacheState) (h : ReachableDistinct s) :
    (s.data.map Torrent.id).Nodup := by
  induction h with
  | init => simp [initialCache]
  | full s fetched days now _ _ => exact dedupById_ids_nodup fetched
  | inc s batch now hnodup hne _ ih =>
    by_cases hb : batch = []
    · simpa [incIngest, hb] using ih
    · simp only [incIngest, if_neg hb]
      have hperm := (mergeIncoming_perm s.data batch).map Torrent.id
      rw [hperm.nodup_iff, List.map_append, List.nodup_append]
      refine ⟨ih, ?_, ?_⟩
      · exact (((List.filter_sublist batch).map Torrent.id).nodup hnodup)
      · intro x hx hx'
        obtain ⟨u, hu, rfl⟩ := List.mem_map.mp hx
        obtain ⟨v, hv, hvid⟩ := List.mem_map.mp hx'
        obtain ⟨hvB, hvfilter⟩ := List.mem_filter.mp hv
        have hnotin : v.id ∉ existingIds s.data := by
          simpa using hvfilter
        exact hnotin (mem_existingIds.mpr ⟨u, hu, hvid.symm, hvid ▸ hne v hvB⟩)

/-- C3 amended, witness: a reachable state built by one incremental
ingest of a duplicate-free batch has pairwise-distinct identifiers. -/
theorem reachable_distinct_ids_nodup_witness :
    ((incIngest initialCache [{ id := "y", timestamp := 2 }] 0).data.map Torrent.id).Nodup :=
  reachable_distinct_ids_nodup _
    (ReachableDistinct.inc _ _ _ (by decide) (by decide) ReachableDistinct.init)

/-- C4 counterexample: `save_cache` (src/app.py line 233) opens the
canonical `cache.json` for writing directly; its operation trace is a
single direct write, not the write-temporary-then-rename pattern the
claim describes, so persistence is not atomic in the claimed sense. -/
theorem save_cache_not_atomic : ¬ atomicSavePattern (saveCacheOps initialCache) := by
  rintro ⟨tmp, content, _, h⟩
  simp [saveCacheOps] at h

/-- C4 amended: every persistence of the store is a single write of the
serialized state directly to the canonical cache file — no temporary file
and no rename are involved — and the written contents deserialize back to
exactly the in-memory state, so an uninterrupted write is faithful (while
an interruption mid-write is not protected by any rename step). -/
theorem save_cache_single_direct_write :
    ∀ s : CacheState,
      saveCacheOps s = [FsOp.write CACHE_FILE (encodeCache s)] ∧
      loadFromFile (encodeCache s) = s :=
  fun _ => ⟨rfl, rfl⟩

/-- C5 counterexample: with the canonical cache file present but
malformed and a parseable backup copy present in the environment,
`load_cache` leaves the store at its current (initial empty) value — the
backup's records are not loaded, because src/app.py lines 95-164 contain
no fallback path; so the claim's backup fallback is false. -/
theorem load_cache_ignores_backup :
    loadCache
      { canonical := some none,
        backup := some (some (CacheFile.modern none (some 5) 30 []
          [{ id := "x", timestamp := 5 }])) }
      initialCache = initialCache ∧
    loadFromFile (CacheFile.modern none (some 5) 30 [] [{ id := "x", timestamp := 5 }]) ≠
      initialCache := by decide

/-- C5 amended: if deserialization of the canonical cache file fails, the
loader catches the exception and leaves the current in-memory store
unchanged (the initial empty store at process start); no backup copy is
consulted, and the load never raises (it is a total function of the file
system and current store). -/
theorem load_cache_malformed_keeps_store :
    ∀ (fs : FileSystem) (current : CacheState),
      fs.canonical = some none → loadCache fs current = current := by
  intro fs current h
  simp [loadCache, h]

/-- C5 amended, witness: a malformed canonical file leaves the initial
store in place. -/
theorem load_cache_malformed_keeps_store_witness :
    loadCache { canonical := some none, backup := none } initialCache = initialCache :=
  load_cache_malformed_keeps_store _ _ rfl

/-- C6: over any page sequence in which every listed page is non-empty
(an exhausted feed is modelled by the list ending), the incremental walk
`_fetch_until_timestamp` returns no record with timestamp ≤ W — a record
exactly at the watermark is treated as already known — and returns
exactly the records of the first five pages' concatenation up to (and
excluding) the first record with timestamp ≤ W, i.e. every fresh record
the pages yield before the first stale one, scanning at most 5 pages. -/
theorem fetch_until_respects_watermark (pages : List (List Torrent)) (cutoff : Int)
    (h : ∀ p ∈ pages, p ≠ []) :
    (∀ t ∈ fetchUntilTimestamp pages cutoff, cutoff < t.timestamp) ∧
    fetchUntilTimestamp pages cutoff =
      ((pages.take MAX_INCREMENTAL_PAGES).flatten).takeWhile (isNewer cutoff) := by
  have he : fetchUntilTimestamp pages cutoff =
      ((pages.take MAX_INCREMENTAL_PAGES).flatten).takeWhile (isNewer cutoff) :=
    walkPages_eq cutoff MAX_INCREMENTAL_PAGES pages h
  refine ⟨fun t ht => ?_, he⟩
  rw [he] at ht
  simpa [isNewer] using List.mem_takeWhile_imp ht

/-- C6 witness: two pages, watermark 1; the record at timestamp 1 on the
second page equals the watermark and ends the walk; the two strictly
newer records are returned. -/
theorem fetch_until_respects_watermark_witness :
    (∀ p ∈ [[({ id := "a", timestamp := 3 } : Torrent), { id := "b", timestamp := 2 }],
        [({ id := "c", timestamp := 1 } : Torrent)]], p ≠ []) ∧
    ((∀ t ∈ fetchUntilTimestamp
        [[({ id := "a", timestamp := 3 } : Torrent), { id := "b", timestamp := 2 }],
         [({ id := "c", timestamp := 1 } : Torrent)]] 1, (1 : Int) < t.timestamp) ∧
      fetchUntilTimestamp
        [[({ id := "a", timestamp := 3 } : Torrent), { id := "b", timestamp := 2 }],
         [({ id := "c", timestamp := 1 } : Torrent)]] 1 =
        (([[({ id := "a", timestamp := 3 } : Torrent), { id := "b", timestamp := 2 }],
          [({ id := "c", timestamp := 1 } : Torrent)]].take MAX_INCREMENTAL_PAGES).flatten).takeWhile
          (isNewer 1)) :=
  ⟨by decide, fetch_until_respects_watermark _ _ (by decide)⟩

/-- C7: in `_fetch_category_pages`, if page 0 is non-empty and its oldest
record is strictly older than the cutoff, exactly one page request is
issued and the result is exactly the page-0 records with timestamp ≥
cutoff (src/scraper.py lines 240-252). -/
theorem full_window_short_circuits_on_page0 (pages : Nat → List Torrent) (cutoff : Int)
    (h1 : pages 0 ≠ []) (h2 : minTimestampOnPage (pages 0) < cutoff) :
    fetchCategoryPages pages cutoff =
      ((pages 0).filter (fun t => decide (cutoff ≤ t.timestamp)), 1) := by
  simp [fetchCategoryPages, h1, h2]

/-- C7 witness: page 0 holds records at timestamps 5 and 1, cutoff 3;
the oldest (1) is older than the cutoff, so one request is issued and
only the timestamp-5 record is kept. -/
theorem full_window_short_circuits_on_page0_witness :
    fetchCategoryPages
      (fun n => if n = 0 then
        [({ id := "a", timestamp := 5 } : Torrent), { id := "b", timestamp := 1 }] else [])
      3 =
      (((fun n => if n = 0 then
          [({ id := "a", timestamp := 5 } : Torrent), { id := "b", timestamp := 1 }] else [])
          0).filter (fun t => decide ((3 : Int) ≤ t.timestamp)), 1) :=
  full_window_short_circuits_on_page0 _ 3 (by decide) (by decide)

/-- C8: merging the same batch into a store twice yields the same record
set as merging it once — membership in the merged store is unchanged by a
repeated merge of the same incoming batch. -/
theorem merge_idempotent_on_record_set (S B : List Torrent) (r : Torrent) :
    r ∈ mergeIncoming (mergeIncoming S B) B ↔ r ∈ mergeIncoming S B := by
  constructor
  · intro h
    rcases mem_mergeIncoming.mp h with h1 | ⟨hB, hnot⟩
    · exact h1
    · by_cases hid : r.id = ""
      · refine mem_mergeIncoming.mpr (Or.inr ⟨hB, fun hmem => ?_⟩)
        obtain ⟨t, _, _, hne⟩ := mem_existingIds.mp hmem
        exact hne hid
      · refine mem_mergeIncoming.mpr (Or.inr ⟨hB, fun hmem => hnot ?_⟩)
        obtain ⟨t, htS, hid', hne⟩ := mem_existingIds.mp hmem
        exact mem_existingIds.mpr ⟨t, mem_mergeIncoming.mpr (Or.inl htS), hid', hne⟩
  · exact fun h => mem_mergeIncoming.mpr (Or.inl h)

/-- C9 counterexample: the full branch builds category metadata from the
raw fetched list (src/app.py line 297) but stores the deduplicated list
(line 323); a fetch that repeats a record makes the stored count 2 while
rebuilding from the stored records yields count 1, so metadata and data
drift apart. -/
theorem full_ingest_metadata_drifts_from_rebuild :
    (fullIngest initialCache
        [{ id := "x", category := "A", timestamp := 5 },
         { id := "x", category := "A", timestamp := 5 }] 30 100).categories ≠
      buildCategoryMetadata
        ((fullIngest initialCache
          [{ id := "x", category := "A", timestamp := 5 },
           { id := "x", category := "A", timestamp := 5 }] 30 100).data) := by
  decide

/-- C9 amended: after every incremental ingest of a non-empty batch the
stored per-partition metadata equals the metadata rebuilt from the
store's current records, and after a full ingest it does so provided the
fetched records carry pairwise-distinct identifiers (then the safety
dedup is the identity and the pre-dedup metadata agrees with the data). -/
theorem ingest_metadata_matches_rebuild :
    (∀ (s : CacheState) (batch : List Torrent) (now : Int), batch ≠ [] →
        (incIngest s batch now).categories =
          buildCategoryMetadata (incIngest s batch now).data) ∧
    (∀ (s : CacheState) (fetched : List Torrent) (days now : Int),
        (fetched.map Torrent.id).Nodup →
        (fullIngest s fetched days now).categories =
          buildCategoryMetadata (fullIngest s fetched days now).data) := by
  constructor
  · intro s batch now hb
    simp only [incIngest, if_neg hb]
  · intro s fetched days now hnodup
    show buildCategoryMetadata fetched = buildCategoryMetadata (dedupById fetched)
    rw [dedupById_eq_self_of_nodup hnodup]

/-- C9 amended, witness: both conjuncts hold at a concrete non-empty
batch and a concrete duplicate-free fetch. -/
theorem ingest_metadata_matches_rebuild_witness :
    (incIngest initialCache [{ id := "x", category := "A", timestamp := 5 }] 0).categories =
      buildCategoryMetadata
        ((incIngest initialCache [{ id := "x", category := "A", timestamp := 5 }] 0).data) ∧
    (fullIngest initialCache [{ id := "x", category := "A", timestamp := 5 }] 30 100).categories =
      buildCategoryMetadata
        ((fullIngest initialCache [{ id := "x", category := "A", timestamp := 5 }] 30 100).data) :=
  ⟨ingest_metadata_matches_rebuild.1 initialCache _ 0 (by decide),
   ingest_metadata_matches_rebuild.2 initialCache _ 30 100 (by decide)⟩

end IptBrowser
